import Mathlib

/-!
Verification of the standardized data collection engine
(`src/utils/dataEngine.js` of the ywc-reporting-portal repository).

The JavaScript source is embedded shallowly:

* JS numbers are modelled as rationals (`ℚ`); `Math.round x` is `⌊x + 1/2⌋`
  (round half toward positive infinity, which is the ECMAScript behaviour).
* Possibly `null`/`undefined` values are modelled with `Option`.
* JS strings are Lean `String`s; `String.prototype.includes`,
  `toLowerCase`, `trim`, `startsWith`, `split` and `substring` are
  re-implemented on the underlying character lists.
* Thrown exceptions are modelled with `Except String`.

All definitions are executable.
-/

namespace DataEngine

/-! ### JavaScript primitives -/

/-- JS `Math.round`: round half toward positive infinity. -/
def jsRound (x : ℚ) : ℤ := ⌊x + 1/2⌋

/-- Substring test on character lists (used to model `String.prototype.includes`). -/
def strHasSubstr (p : List Char) : List Char → Bool
  | [] => p.isEmpty
  | c :: t => p.isPrefixOf (c :: t) || strHasSubstr p t

/-- JS `s.includes(pat)`. -/
def jsIncludes (s pat : String) : Bool := strHasSubstr pat.data s.data

/-- JS `s.toLowerCase()` (ASCII case folding). -/
def jsToLower (s : String) : String := ⟨s.data.map Char.toLower⟩

/-- JS `s.trim()`: strip whitespace from both ends. -/
def jsTrim (s : String) : String :=
  ⟨((s.data.dropWhile Char.isWhitespace).reverse.dropWhile Char.isWhitespace).reverse⟩

/-- JS `s.startsWith(pat)`. -/
def jsStartsWith (s pat : String) : Bool := pat.data.isPrefixOf s.data

/-- JS `s.split(sep)` for a one-character separator. -/
def jsSplit (s : String) (sep : Char) : List String :=
  (s.data.splitOn sep).map (fun l => ⟨l⟩)

/-! ### Calculations (`Calculations` object, dataEngine.js lines 114-144)

Each JS parameter that the code guards with a falsiness check is modelled
as `Option ℚ` (`none` = `null`/`undefined`); for a number the JS guard
`!x || x === 0` holds exactly when the value is absent or zero. -/

/-- `Calculations.turnoverRate(staffLeft, averageStaff)`. -/
def turnoverRate (staffLeft : ℚ) (averageStaff : Option ℚ) : ℚ :=
  match averageStaff with
  | none => 0
  | some a => if a = 0 then 0 else (jsRound (staffLeft / a * 100) : ℚ)

/-- `Calculations.fundingRatio(nonCore, core)` (two decimal places). -/
def fundingRatio (nonCore : ℚ) (core : Option ℚ) : ℚ :=
  match core with
  | none => 0
  | some c => if c = 0 then 0 else (jsRound (nonCore / c * 100) : ℚ) / 100

/-- `Calculations.corePercentage(core, total)`. -/
def corePercentage (core : ℚ) (total : Option ℚ) : ℚ :=
  match total with
  | none => 0
  | some t => if t = 0 then 0 else (jsRound (core / t * 100) : ℚ)

/-- `Calculations.average(values)`: `null` entries are modelled as `none`
(the JS filter `v != null && !isNaN(v)` keeps exactly the genuine numbers). -/
def average (values : List (Option ℚ)) : ℚ :=
  let validValues := values.filterMap id
  if validValues.length = 0 then 0
  else (jsRound (validValues.sum / validValues.length * 100) : ℚ) / 100

/-- `Calculations.growthRate(current, previous)`. -/
def growthRate (current : ℚ) (previous : Option ℚ) : ℚ :=
  match previous with
  | none => 0
  | some p => if p = 0 then 0 else (jsRound ((current - p) / p * 100) : ℚ)

/-- Round half away from zero (what the specification calls standard
rounding); written from the specification text, for comparison with the
behaviour of `jsRound`. -/
def roundHalfAwayFromZero (x : ℚ) : ℤ :=
  if x < 0 then -⌊-x + 1/2⌋ else ⌊x + 1/2⌋

/-! ### Values, option catalogs and validation rules -/

/-- A scalar JS value as stored in a response or an option record. -/
inductive JSVal where
  | str : String → JSVal
  | num : ℚ → JSVal
  | bool : Bool → JSVal
deriving DecidableEq

/-- One `{value, label}` option record. -/
structure Opt where
  value : JSVal
  label : String
deriving DecidableEq

/-- The validation rules of the `ValidationRules` object, identified by name.
The compiler only ever compares validators for identity
(`v === ValidationRules.required`), so the rule bodies are not needed. -/
inductive VRule where
  | required
  | staffCount
  | currency
  | percentage
  | scaleRule
deriving DecidableEq

/-- `StandardOptions.difficulty`. -/
def StandardOptions.difficulty : List Opt :=
  [⟨.str "not_difficult", "Not difficult"⟩,
   ⟨.str "somewhat_difficult", "Somewhat difficult"⟩,
   ⟨.str "very_difficult", "Very difficult"⟩,
   ⟨.str "not_applicable", "Not applicable"⟩]

/-- `StandardOptions.yesNoNA`. -/
def StandardOptions.yesNoNA : List Opt :=
  [⟨.str "yes", "Yes"⟩, ⟨.str "no", "No"⟩, ⟨.str "not_applicable", "Not applicable"⟩]

/-- `StandardOptions.yesNo`. -/
def StandardOptions.yesNo : List Opt :=
  [⟨.str "yes", "Yes"⟩, ⟨.str "no", "No"⟩]

/-- `StandardOptions.satisfactionScale` (numeric option values). -/
def StandardOptions.satisfactionScale : List Opt :=
  [⟨.num 1, "Very Dissatisfied"⟩, ⟨.num 2, "Dissatisfied"⟩, ⟨.num 3, "Neutral"⟩,
   ⟨.num 4, "Satisfied"⟩, ⟨.num 5, "Very Satisfied"⟩]

/-- `StandardOptions.employeeBenefits`. -/
def StandardOptions.employeeBenefits : List Opt :=
  [⟨.str "health_dental", "Health and/or dental insurance"⟩,
   ⟨.str "eap", "Employee Assistance Program (EAP)"⟩,
   ⟨.str "mental_health_days", "Paid mental health or self-care days"⟩,
   ⟨.str "rrsp_matching", "RRSP matching or retirement savings program"⟩,
   ⟨.str "professional_development", "Paid professional development time or funds"⟩,
   ⟨.str "flexible_schedule", "Flexible work schedule"⟩,
   ⟨.str "remote_work", "Remote work options"⟩,
   ⟨.str "wellness_program", "Wellness program or gym membership"⟩,
   ⟨.str "extended_leave", "Extended parental/family leave"⟩,
   ⟨.str "other", "Other (specify)"⟩]

/-- `StandardOptions.boardCompensation`. -/
def StandardOptions.boardCompensation : List Opt :=
  [⟨.str "per_meeting", "Per-meeting stipend"⟩,
   ⟨.str "monthly", "Monthly honorarium"⟩,
   ⟨.str "annual", "Annual honorarium"⟩,
   ⟨.str "travel", "Travel reimbursement"⟩,
   ⟨.str "childcare", "Childcare reimbursement"⟩,
   ⟨.str "gifts", "Gift cards or tokens"⟩,
   ⟨.str "other", "Other (specify)"⟩]

/-- `StandardOptions.collaborationTypes`. -/
def StandardOptions.collaborationTypes : List Opt :=
  [⟨.str "co_programming", "Co-delivered programming or services"⟩,
   ⟨.str "joint_funding", "Joint funding proposals or reports"⟩,
   ⟨.str "shared_advocacy", "Shared advocacy or policy initiatives"⟩,
   ⟨.str "events", "Attended shared events or working groups"⟩,
   ⟨.str "coordination", "Regular coordination or planning"⟩,
   ⟨.str "resource_sharing", "Resource sharing (space, staff, tools)"⟩,
   ⟨.str "other", "Other (specify)"⟩]

/-! ### Text extraction helpers (dataEngine.js lines 412-489) -/

/-- Replace every maximal run of characters satisfying `mark` by the single
character `rep` (used to model the JS regex replacements with `+` patterns). -/
def collapseRuns (mark : Char → Bool) (rep : Char) : List Char → List Char
  | [] => []
  | c :: rest =>
    if mark c then rep :: collapseRuns mark rep (rest.dropWhile mark)
    else c :: collapseRuns mark rep rest
termination_by l => l.length
decreasing_by
  · exact Nat.lt_succ_of_le ((List.dropWhile_sublist mark).length_le)
  · exact Nat.lt_succ_of_le (Nat.le_refl _)

/-- JS `text.toLowerCase().replace(/\s+/g, '_')`. -/
def slugSpaces (s : String) : String :=
  ⟨collapseRuns Char.isWhitespace '_' (jsToLower s).data⟩

/-- JS `text.toLowerCase().replace(/[^a-z0-9]/g, '_').replace(/_+/g, '_')`. -/
def slugNonAlnum (s : String) : String :=
  ⟨collapseRuns (· = '_') '_'
    ((jsToLower s).data.map
      (fun c => if ('a' ≤ c ∧ c ≤ 'z') ∨ ('0' ≤ c ∧ c ≤ '9') then c else '_'))⟩

/-- `extractCheckboxOptions(measurementMethod)`: collect the lines that start
with the checkbox glyph. JS `substring(2)` drops the glyph and the following
character. -/
def extractCheckboxOptions (measurementMethod : Option String) : List Opt :=
  match measurementMethod with
  | none => []
  | some m =>
    let options := (jsSplit m '\n').filterMap (fun line =>
      let trimmedLine := jsTrim line
      if jsStartsWith trimmedLine "☐" then
        let optionText := jsTrim ⟨trimmedLine.data.drop 2⟩
        if optionText ≠ "" ∧ optionText ≠ "Other (please specify)" then
          some ⟨.str (slugSpaces optionText), optionText⟩
        else none
      else none)
    if options.length > 0 then options ++ [⟨.str "other", "Other (specify)"⟩]
    else options

/-- `extractYesNoQuestion(method)`: the JS regex
`^([^?]*\?)\s*\(Yes\/No\)` anchored at the start — the text up to and
including the first question mark, provided it is followed (after optional
whitespace) by the literal marker. -/
def extractYesNoQuestion (method : String) : String :=
  let cs := method.data
  let pre := cs.takeWhile (fun c => c ≠ '?')
  match cs.drop pre.length with
  | '?' :: rest =>
    if "(Yes/No)".data.isPrefixOf (rest.dropWhile Char.isWhitespace)
    then ⟨pre ++ ['?']⟩
    else "Does your organization have this?"
  | _ => "Does your organization have this?"

/-- At one position, try the two regex alternatives
`Which of the following[^?]*\?` and `What[^?]*\?`. -/
def matchQuestionAt (cs : List Char) : Option (List Char) :=
  let tryLit : String → Option (List Char) := fun lit =>
    if lit.data.isPrefixOf cs then
      let rest := cs.drop lit.data.length
      let seg := rest.takeWhile (fun c => c ≠ '?')
      match rest.drop seg.length with
      | '?' :: _ => some (lit.data ++ seg ++ ['?'])
      | _ => none
    else none
  (tryLit "Which of the following").orElse (fun _ => tryLit "What")

/-- Leftmost match of the alternation, scanning start positions left to right. -/
def scanForQuestion : List Char → Option (List Char)
  | [] => none
  | c :: rest =>
    match matchQuestionAt (c :: rest) with
    | some m => some m
    | none => scanForQuestion rest

/-- `extractCheckboxQuestion(method)`. -/
def extractCheckboxQuestion (method : String) : String :=
  match scanForQuestion method.data with
  | some m => ⟨m⟩
  | none => "Which of the following apply?"

/-- `extractCheckboxOptionsFromMethod(method)`: the enhanced extraction used
by the multi-part branch; first the line-based extraction, then the inline
glyph-delimited pattern, then the benefit fallback. -/
def extractCheckboxOptionsFromMethod (method : String) : List Opt :=
  let standardOpts := extractCheckboxOptions (some method)
  if standardOpts.length > 0 then standardOpts
  else
    let options := ((jsSplit method '☐').drop 1).filterMap (fun seg =>
      if seg = "" then none
      else
        let optionText := jsTrim seg
        if optionText ≠ "" ∧ ¬(jsIncludes optionText "Other (please specify)" = true) then
          some (⟨.str (slugNonAlnum optionText), optionText⟩ : Opt)
        else none)
    let options :=
      if options.length > 0 then options ++ [⟨.str "other", "Other (specify)"⟩]
      else options
    if options.length = 0 ∧
        (jsIncludes (jsToLower method) "benefit" || jsIncludes (jsToLower method) "wellness") then
      StandardOptions.employeeBenefits
    else if options.length > 0 then options
    else StandardOptions.collaborationTypes

/-! ### Field configuration factory (`createFieldConfig`, lines 191-407)

Field type constants (`FieldTypes`) are plain strings in the source and are
inlined as string literals here. -/

/-- A raw input field inside a `calculated_group` or `multi_part` configuration. -/
structure CFField where
  key : String
  ftype : String
  label : String
  options : Option (List Opt) := none
  validation : List VRule
  placeholder : Option String := none
  dependsOn : Option String := none
  dependsOnValue : Option String := none

/-- A derived field of a `calculated_group` configuration. `formula` gets the
sibling data object, modelled as a total map from key to number. -/
structure CalcSpec where
  key : String
  label : String
  formula : (String → ℚ) → ℚ
  format : Option String := none

/-- A plain (single-field) configuration. -/
structure SimpleConfig where
  ftype : String
  label : Option String := none
  options : Option (List Opt) := none
  scale : Option (List Opt) := none
  validation : List VRule
  placeholder : Option String := none
  maxLength : Option ℕ := none
  warning : Option String := none

/-- The three shapes a field configuration can take. -/
inductive FieldConfig where
  | calculatedGroup (fields : List CFField) (calculations : List CalcSpec)
  | multiPart (fields : List CFField)
  | simple (config : SimpleConfig)

/-- Branch test of the staff-turnover rule. -/
def matchesTurnover (name : String) : Bool :=
  jsIncludes name "turnover" || jsIncludes name "retention"

/-- Branch test of the funding rule. -/
def matchesFunding (name : String) : Bool :=
  jsIncludes name "funding" && (jsIncludes name "ratio" || jsIncludes name "core")

/-- Branch test of the multi-part rule. The patterns contain upper-case
letters although they are only ever applied to the lower-cased method. -/
def matchesMultiPart (method : String) : Bool :=
  jsIncludes method "(Yes/No)" && jsIncludes method "Check all that apply"

/-- Branch test of the wellness/benefits rule (the nested JS conditional
with no else-branch collapses to a conjunction). -/
def matchesWellness (name method : String) : Bool :=
  (jsIncludes name "wellness" || jsIncludes name "benefit") &&
    jsIncludes method "Check all that apply"

/-- Branch test of the yes/no rule. -/
def matchesYesNo (method : String) : Bool :=
  jsIncludes method "yes/no" || jsIncludes method "(yes / no)" ||
    jsIncludes method "(Yes/No)"

/-- Branch test of the generic checkbox rule. -/
def matchesCheckbox (method : String) : Bool :=
  jsIncludes method "check all that apply" || jsIncludes method "☐"

/-- Branch test of the difficulty-scale rule. -/
def matchesDifficulty (method : String) : Bool :=
  jsIncludes method "difficult" && jsIncludes method "options:"

/-- Branch test of the satisfaction rule. -/
def matchesSatisfaction (name method : String) : Bool :=
  jsIncludes name "satisfaction" || jsIncludes method "satisfied"

/-- Branch test of the board-compensation rule. -/
def matchesBoardComp (name : String) : Bool :=
  jsIncludes name "board" && jsIncludes name "compensation"

/-- Branch test of the collaboration rule. -/
def matchesCollaboration (name : String) : Bool :=
  jsIncludes name "collaboration" || jsIncludes name "coalition"

/-- Branch test of the generic count rule. -/
def matchesNumber (method : String) : Bool :=
  jsIncludes method "how many" || jsIncludes method "number of"

/-- Branch test of the generic percentage rule. -/
def matchesPercentage (method : String) : Bool :=
  jsIncludes method "percentage" || jsIncludes method "%"

/-- `createFieldConfig(indicatorName, measurementMethod)`. The branch order
and the matching patterns are reproduced exactly; note that `method` is the
lower-cased method text, while the patterns of the multi-part branch and of
the wellness branch contain upper-case letters. -/
def createFieldConfig (indicatorName : String) (measurementMethod : Option String) :
    FieldConfig :=
  let name := jsToLower indicatorName
  let method := (measurementMethod.map jsToLower).getD ""
  -- Staff turnover indicators
  if matchesTurnover name then
    .calculatedGroup
      [{ key := "staffAtStart", ftype := "number", label := "Staff count at period start",
         validation := [.required, .staffCount], placeholder := some "e.g., 12" },
       { key := "staffAtEnd", ftype := "number", label := "Staff count at period end",
         validation := [.required, .staffCount], placeholder := some "e.g., 10" },
       { key := "staffLeft", ftype := "number", label := "Number of staff who left during period",
         validation := [.required, .staffCount], placeholder := some "e.g., 3" }]
      [{ key := "averageStaff",
         formula := fun data => (jsRound ((data "staffAtStart" + data "staffAtEnd") / 2) : ℚ),
         label := "Average staff count" },
       { key := "turnoverRate",
         formula := fun data => turnoverRate (data "staffLeft") (some (data "averageStaff")),
         label := "Turnover rate (%)", format := some "percentage" }]
  -- Funding indicators
  else if matchesFunding name then
    .calculatedGroup
      [{ key := "coreFunding", ftype := "currency", label := "Total core funding ($)",
         validation := [.required, .currency], placeholder := some "e.g., 150000" },
       { key := "projectFunding", ftype := "currency",
         label := "Total project/program-specific funding ($)",
         validation := [.required, .currency], placeholder := some "e.g., 75000" }]
      [{ key := "totalFunding",
         formula := fun data => data "coreFunding" + data "projectFunding",
         label := "Total funding ($)", format := some "currency" },
       { key := "corePercentage",
         formula := fun data => corePercentage (data "coreFunding") (some (data "totalFunding")),
         label := "Core funding percentage (%)", format := some "percentage" },
       { key := "fundingRatio",
         formula := fun data => fundingRatio (data "projectFunding") (some (data "coreFunding")),
         label := "Funding leverage ratio", format := some "ratio" }]
  -- Multi-part questions (like Universal Indicators); the patterns contain
  -- upper-case letters although `method` has been lower-cased
  else if matchesMultiPart method then
    .multiPart
      [{ key := "hasProgram", ftype := "radio", label := extractYesNoQuestion method,
         options := some StandardOptions.yesNo, validation := [.required] },
       { key := "details", ftype := "checkbox", label := extractCheckboxQuestion method,
         options := some (extractCheckboxOptionsFromMethod method),
         validation := [.required],
         dependsOn := some "hasProgram", dependsOnValue := some "yes" }]
  -- Employee wellness/benefits questions (nested if without else in the
  -- source: when the inner test fails, control falls through)
  else if matchesWellness name method then
    .simple { ftype := "checkbox", options := some StandardOptions.employeeBenefits,
              validation := [.required] }
  -- Yes/No questions
  else if matchesYesNo method then
    .simple { ftype := "radio", options := some StandardOptions.yesNo,
              validation := [.required] }
  -- Checkbox questions
  else if matchesCheckbox method then
    let options := extractCheckboxOptions measurementMethod
    .simple { ftype := "checkbox",
              options := some (if options.length > 0 then options
                               else StandardOptions.collaborationTypes),
              validation := [.required] }
  -- Difficulty scales
  else if matchesDifficulty method then
    .simple { ftype := "radio", options := some StandardOptions.difficulty,
              validation := [.required] }
  -- Satisfaction scales
  else if matchesSatisfaction name method then
    .simple { ftype := "scale", scale := some StandardOptions.satisfactionScale,
              validation := [.required] }
  -- Board compensation
  else if matchesBoardComp name then
    .simple { ftype := "checkbox", options := some StandardOptions.boardCompensation,
              validation := [.required] }
  -- Collaboration questions
  else if matchesCollaboration name then
    if jsIncludes method "how many" then
      .simple { ftype := "number", label := some "Number of meetings/events attended",
                validation := [.required, .staffCount], placeholder := some "e.g., 4" }
    else
      .simple { ftype := "checkbox", options := some StandardOptions.collaborationTypes,
                validation := [.required] }
  -- Generic number input
  else if matchesNumber method then
    .simple { ftype := "number", validation := [.required, .staffCount],
              placeholder := some "Enter number" }
  -- Generic percentage
  else if matchesPercentage method then
    .simple { ftype := "percentage", validation := [.required, .percentage],
              placeholder := some "e.g., 25" }
  -- Fallback to short text
  else
    .simple { ftype := "text_short", maxLength := some 100, validation := [.required],
              placeholder := some "Brief response (max 100 characters)",
              warning := some "Consider converting this to structured data for better comparability" }

/-- `determineTier(indicator, method)` (lines 691-710). -/
def determineTier (indicator method : String) : ℕ :=
  let text := jsToLower (indicator ++ " " ++ method)
  if jsIncludes text "staff" && jsIncludes text "turnover" then 1
  else if jsIncludes text "funding" && (jsIncludes text "core" || jsIncludes text "ratio") then 1
  else if jsIncludes text "board" && jsIncludes text "meeting" then 1
  else if jsIncludes text "collaboration" || jsIncludes text "coalition" then 2
  else if jsIncludes text "satisfaction" || jsIncludes text "feedback" then 2
  else if jsIncludes text "training" || jsIncludes text "professional development" then 2
  else if jsIncludes text "outcome" || jsIncludes text "impact" then 3
  else if jsIncludes text "policy" || jsIncludes text "advocacy" then 3
  else if jsIncludes text "leadership" || jsIncludes text "governance" then 3
  else 2

/-! ### Indicator compiler (`generateStandardizedFields`, lines 571-686) -/

/-- A CSV row: an ordered association of column header to cell text.
`rowGet` models JS property access (`undefined` when the key is absent). -/
def Row := List (String × String)

/-- JS `row[key]`. -/
def rowGet (r : Row) (k : String) : Option String :=
  (List.find? (fun p => p.1 == k) r).map Prod.snd

/-- JS `row[col]` where `col` itself may be `undefined`. -/
def rowGetOpt (r : Row) (k : Option String) : Option String :=
  k.bind (rowGet r)

/-- JS `Object.keys(row)`. -/
def rowKeys (r : Row) : List String :=
  List.map Prod.fst r

/-- A key resolves to the indicator column role. -/
def isIndicatorKey (k : String) : Bool :=
  jsIncludes (jsToLower k) "indicator" || jsIncludes (jsToLower k) "outcome" ||
    jsIncludes (jsToLower k) "measure"

/-- A key resolves to the method column role. -/
def isMethodKey (k : String) : Bool :=
  jsIncludes (jsToLower k) "method" || jsIncludes (jsToLower k) "how" ||
    jsIncludes (jsToLower k) "measurement" || jsIncludes (jsToLower k) "approach"

/-- A key resolves to the notes column role. -/
def isNotesKey (k : String) : Bool :=
  jsIncludes (jsToLower k) "note" || jsIncludes (jsToLower k) "description" ||
    jsIncludes (jsToLower k) "comment"

/-- One compiled input or calculated field. Absent JS object properties are
`none`. -/
structure Field where
  id : String
  ftype : String
  label : Option String := none
  description : Option String := none
  options : Option (List Opt) := none
  required : Bool
  placeholder : Option String := none
  validation : Option (List VRule) := none
  formula : Option ((String → ℚ) → ℚ) := none
  format : Option String := none
  unit : Option String := none
  dependsOn : Option String := none
  dependsOnValue : Option String := none
  maxLength : Option ℕ := none
  warning : Option String := none

/-- One compiled indicator. -/
structure Indicator where
  id : String
  title : String
  description : String
  tier : ℕ
  fields : List Field

/-- Expansion of a field configuration into the indicator's field list
(the three branches on `fieldConfig.type` in the source). -/
def fieldsFor (indId indicatorText methodText : String) (cfg : FieldConfig) : List Field :=
  match cfg with
  | .calculatedGroup fs cs =>
    fs.map (fun f =>
      { id := indId ++ "_" ++ f.key, ftype := f.ftype, label := some f.label,
        description := none, required := true, placeholder := f.placeholder,
        validation := some f.validation }) ++
    cs.map (fun c =>
      { id := indId ++ "_" ++ c.key, ftype := "calculated", label := some c.label,
        formula := some c.formula, format := c.format,
        unit := some (if c.format = some "percentage" then "%"
                      else if c.format = some "currency" then "$" else ""),
        required := false })
  | .multiPart fs =>
    fs.map (fun f =>
      { id := indId ++ "_" ++ f.key, ftype := f.ftype, label := some f.label,
        options := f.options,
        required := f.validation.any (· = .required),
        dependsOn := f.dependsOn.map (fun d => indId ++ "_" ++ d),
        dependsOnValue := f.dependsOnValue,
        validation := some f.validation })
  | .simple sc =>
    [{ id := indId ++ "_main", ftype := sc.ftype, label := some indicatorText,
       description := some methodText,
       options := sc.options.orElse (fun _ => sc.scale),
       required := true, placeholder := sc.placeholder,
       validation := some sc.validation, maxLength := sc.maxLength,
       warning := sc.warning }]

/-- The JS skip test `!indicatorText || indicatorText.trim() === ''` for a
present string value. -/
def isBlankText (s : String) : Bool := s == "" || jsTrim s == ""

/-- The `csvData.forEach((row, index) => ...)` loop: one indicator per row
with non-blank indicator text, indexed by row position. -/
def processRows (icol mcol ncol : Option String) : ℕ → List Row → List Indicator
  | _, [] => []
  | index, row :: rest =>
    let tail := processRows icol mcol ncol (index + 1) rest
    let methodText := (rowGetOpt row mcol).getD ""
    match rowGetOpt row icol with
    | none => tail
    | some s =>
      if isBlankText s then tail
      else
        let indId := "indicator_" ++ Nat.repr index
        { id := indId, title := jsTrim s,
          description := (rowGetOpt row ncol).getD "",
          tier := determineTier s methodText,
          fields := fieldsFor indId s methodText (createFieldConfig s (some methodText))
        } :: tail

/-- `generateStandardizedFields(csvData)`. A `none` argument models a
`null`/`undefined` row set; the thrown missing-column error is an
`Except.error` carrying the message string. -/
def generateStandardizedFields (csvData : Option (List Row)) :
    Except String (List Indicator) :=
  match csvData with
  | none => .ok []
  | some rows =>
    match rows with
    | [] => .ok []
    | firstRow :: _ =>
      let indicatorCol := (rowKeys firstRow).find? isIndicatorKey
      let methodCol := (rowKeys firstRow).find? isMethodKey
      let notesCol := (rowKeys firstRow).find? isNotesKey
      match indicatorCol with
      | none =>
        .error ("No indicator column found. Available columns: " ++
          String.intercalate ", " (rowKeys firstRow))
      | some c => .ok (processRows (some c) methodCol notesCol 0 rows)

/-! ### Completion scorer (`calculateCompletionScore`, lines 715-741) and
data quality scorer (`calculateDataQuality`, lines 495-525) -/

/-- JS `response != null && response !== ''` — loose inequality with `null`
excludes both `null` and `undefined` (modelled as `none`); the strict
comparison with `''` only excludes the empty string, so `0`, `false` and
`"0"` all pass. -/
def responseFilled (v : Option JSVal) : Bool :=
  match v with
  | none => false
  | some (.str s) => !(s == "")
  | some _ => true

/-- Result record of `calculateCompletionScore`. -/
structure CompletionScore where
  percentage : ℤ
  completed : ℕ
  total : ℕ
deriving DecidableEq

/-- `calculateCompletionScore(indicators, responses)`; the response store is
a map from field id to a possibly-absent value. -/
def calculateCompletionScore (indicators : List Indicator)
    (responses : String → Option JSVal) : CompletionScore :=
  if indicators.length = 0 then ⟨0, 0, 0⟩
  else
    let allFields := indicators.flatMap Indicator.fields
    let totalFields := allFields.countP (fun f => !(f.ftype == "calculated"))
    let completedFields := allFields.countP
      (fun f => !(f.ftype == "calculated") && responseFilled (responses f.id))
    { percentage :=
        if totalFields > 0 then jsRound ((completedFields : ℚ) / totalFields * 100) else 0,
      completed := completedFields,
      total := totalFields }

/-- One entry of the response record set consumed by `calculateDataQuality`:
a value plus the field type tag carried on the response. -/
structure QualityResponse where
  value : Option JSVal
  rtype : Option String

/-- Result record of `calculateDataQuality`. -/
structure QualityScore where
  completeness : ℤ
  standardization : ℤ
  overallScore : ℤ
deriving DecidableEq

/-- The structured field types that count as standardized. -/
def structuredTypes : List String :=
  ["number", "currency", "radio", "checkbox", "scale", "calculated"]

/-- `calculateDataQuality(responses)` over `Object.entries(responses)`.
The JS literals `0.6` and `0.4` are modelled as the exact rationals. -/
def calculateDataQuality (responses : List (String × QualityResponse)) : QualityScore :=
  let totalFields := responses.length
  let completedFields := responses.countP (fun p => responseFilled p.2.value)
  let standardizedFields := responses.countP (fun p =>
    responseFilled p.2.value &&
      (match p.2.rtype with
       | some t => structuredTypes.contains t
       | none => false))
  { completeness :=
      if totalFields > 0 then jsRound ((completedFields : ℚ) / totalFields * 100) else 0,
    standardization :=
      if completedFields > 0 then
        jsRound ((standardizedFields : ℚ) / completedFields * 100)
      else 0,
    overallScore :=
      if totalFields > 0 then
        jsRound (((completedFields : ℚ) * (6/10) + (standardizedFields : ℚ) * (4/10)) /
          totalFields * 100)
      else 0 }

/-! ### Rounding lemmas -/

theorem jsRound_eq_of (x : ℚ) (n : ℤ) (h1 : (n : ℚ) - 1/2 ≤ x) (h2 : x < (n : ℚ) + 1/2) :
    jsRound x = n := by
  unfold jsRound
  rw [Int.floor_eq_iff]
  constructor <;> [skip; push_cast] <;> linarith

theorem jsRound_nonneg (x : ℚ) (h : 0 ≤ x) : 0 ≤ jsRound x := by
  unfold jsRound
  exact Int.floor_nonneg.mpr (by linarith)

theorem jsRound_le (x : ℚ) (b : ℤ) (h : x ≤ b) : jsRound x ≤ b := by
  unfold jsRound
  have hlt : (x + 1/2 : ℚ) < ((b + 1 : ℤ) : ℚ) := by push_cast; linarith
  have := Int.floor_lt.mpr hlt
  omega

/-! ### Claim C5 -/

/-- C5: every calculation function returns 0 when its required denominator is
zero or absent (and `average` returns 0 when no entry is a valid number);
otherwise it computes the stated formula; in particular
`turnoverRate(3, 11) = 27`, `fundingRatio(75000, 150000) = 0.5` and
`corePercentage(150000, 225000) = 67`. In this rational-number model every
result is a finite rational, so no undefined or infinite value can occur. -/
theorem calculations_zero_on_missing_denominator :
    (∀ s : ℚ, turnoverRate s none = 0 ∧ turnoverRate s (some 0) = 0)
    ∧ (∀ x : ℚ, fundingRatio x none = 0 ∧ fundingRatio x (some 0) = 0)
    ∧ (∀ c : ℚ, corePercentage c none = 0 ∧ corePercentage c (some 0) = 0)
    ∧ (∀ c : ℚ, growthRate c none = 0 ∧ growthRate c (some 0) = 0)
    ∧ (∀ vs : List (Option ℚ), vs.filterMap id = [] → average vs = 0)
    ∧ (∀ s a : ℚ, a ≠ 0 → turnoverRate s (some a) = (jsRound (s / a * 100) : ℚ))
    ∧ (∀ x c : ℚ, c ≠ 0 → fundingRatio x (some c) = (jsRound (x / c * 100) : ℚ) / 100)
    ∧ (∀ c t : ℚ, t ≠ 0 → corePercentage c (some t) = (jsRound (c / t * 100) : ℚ))
    ∧ (∀ c p : ℚ, p ≠ 0 → growthRate c (some p) = (jsRound ((c - p) / p * 100) : ℚ))
    ∧ turnoverRate 3 (some 11) = 27
    ∧ fundingRatio 75000 (some 150000) = 1/2
    ∧ corePercentage 150000 (some 225000) = 67 := by
  refine ⟨fun s => ⟨rfl, by simp [turnoverRate]⟩,
    fun x => ⟨rfl, by simp [fundingRatio]⟩,
    fun c => ⟨rfl, by simp [corePercentage]⟩,
    fun c => ⟨rfl, by simp [growthRate]⟩,
    fun vs h => by simp only [average, h]; norm_num,
    fun s a h => by simp [turnoverRate, h],
    fun x c h => by simp [fundingRatio, h],
    fun c t h => by simp [corePercentage, h],
    fun c p h => by simp [growthRate, h],
    by norm_num [turnoverRate, jsRound],
    by norm_num [fundingRatio, jsRound],
    by norm_num [corePercentage, jsRound]⟩

/-- C5 witness: the hypotheses of the conditional clauses hold at concrete
inputs. -/
theorem calculations_zero_on_missing_denominator_witness :
    ([(none : Option ℚ), none].filterMap id = [] ∧ average [none, none] = 0)
    ∧ ((11 : ℚ) ≠ 0 ∧ turnoverRate 3 (some 11) = (jsRound (3 / 11 * 100) : ℚ)) := by
  refine ⟨⟨rfl, calculations_zero_on_missing_denominator.2.2.2.2.1 _ rfl⟩,
    ⟨by norm_num, calculations_zero_on_missing_denominator.2.2.2.2.2.1 3 11 (by norm_num)⟩⟩

/-! ### Claim C9 -/

/-- C9 counterexample: `growthRate(199, 200)` computes the exact ratio
`-0.5` percent; JS `Math.round` sends it to `0`, while rounding half away
from zero would give `-1`. The claimed rounding rule therefore fails. -/
theorem growthRate_not_round_half_away_from_zero :
    growthRate 199 (some 200) = 0
    ∧ roundHalfAwayFromZero ((199 - 200) / 200 * 100 : ℚ) = -1
    ∧ growthRate 199 (some 200) ≠
        (roundHalfAwayFromZero ((199 - 200) / 200 * 100 : ℚ) : ℚ) := by
  refine ⟨by norm_num [growthRate, jsRound], by norm_num [roundHalfAwayFromZero], ?_⟩
  norm_num [growthRate, jsRound, roundHalfAwayFromZero]

/-- C9 amended: each calculation function rounds its stated formula half
toward positive infinity (the behaviour of JS `Math.round`) at the stated
precision — a whole number for `turnoverRate`, `corePercentage` and
`growthRate`, two decimals for `fundingRatio` and `average`. For nonnegative
arguments this agrees with rounding half away from zero. -/
theorem calculations_round_half_toward_posinf :
    (∀ s a : ℚ, a ≠ 0 → ∀ n : ℤ,
      (n : ℚ) - 1/2 ≤ s / a * 100 → s / a * 100 < (n : ℚ) + 1/2 →
      turnoverRate s (some a) = (n : ℚ))
    ∧ (∀ x c : ℚ, c ≠ 0 → ∀ n : ℤ,
      (n : ℚ) - 1/2 ≤ x / c * 100 → x / c * 100 < (n : ℚ) + 1/2 →
      fundingRatio x (some c) = (n : ℚ) / 100)
    ∧ (∀ c t : ℚ, t ≠ 0 → ∀ n : ℤ,
      (n : ℚ) - 1/2 ≤ c / t * 100 → c / t * 100 < (n : ℚ) + 1/2 →
      corePercentage c (some t) = (n : ℚ))
    ∧ (∀ c p : ℚ, p ≠ 0 → ∀ n : ℤ,
      (n : ℚ) - 1/2 ≤ (c - p) / p * 100 → (c - p) / p * 100 < (n : ℚ) + 1/2 →
      growthRate c (some p) = (n : ℚ))
    ∧ (∀ vs : List (Option ℚ), vs.filterMap id ≠ [] → ∀ n : ℤ,
      (n : ℚ) - 1/2 ≤ (vs.filterMap id).sum / (vs.filterMap id).length * 100 →
      (vs.filterMap id).sum / (vs.filterMap id).length * 100 < (n : ℚ) + 1/2 →
      average vs = (n : ℚ) / 100)
    ∧ (∀ x : ℚ, 0 ≤ x → jsRound x = roundHalfAwayFromZero x) := by
  refine ⟨fun s a h n h1 h2 => by simp [turnoverRate, h, jsRound_eq_of _ n h1 h2],
    fun x c h n h1 h2 => by simp [fundingRatio, h, jsRound_eq_of _ n h1 h2],
    fun c t h n h1 h2 => by simp [corePercentage, h, jsRound_eq_of _ n h1 h2],
    fun c p h n h1 h2 => by simp [growthRate, h, jsRound_eq_of _ n h1 h2],
    fun vs h n h1 h2 => ?_, fun x h => ?_⟩
  · have hlen : (vs.filterMap id).length ≠ 0 := by
      simpa [List.length_eq_zero] using h
    simp only [average, hlen, if_false, jsRound_eq_of _ n h1 h2]
  · simp [roundHalfAwayFromZero, not_lt.mpr h, jsRound]

/-- C9 amended witness: `growthRate(3, 2)` rounds `50` to itself. -/
theorem calculations_round_half_toward_posinf_witness :
    ((2 : ℚ) ≠ 0 ∧ ((50 : ℤ) : ℚ) - 1/2 ≤ (3 - 2) / 2 * 100
      ∧ (3 - 2) / 2 * 100 < ((50 : ℤ) : ℚ) + 1/2)
    ∧ growthRate 3 (some 2) = ((50 : ℤ) : ℚ) := by
  refine ⟨⟨by norm_num, by norm_num, by norm_num⟩, ?_⟩
  exact calculations_round_half_toward_posinf.2.2.2.1 3 2 (by norm_num) 50
    (by norm_num) (by norm_num)

/-! ### Claim C4 -/

theorem responseFilled_iff (v : Option JSVal) :
    responseFilled v = true ↔ v ≠ none ∧ v ≠ some (JSVal.str "") := by
  cases v with
  | none => simp [responseFilled]
  | some x => cases x <;> simp [responseFilled]

/-- C4: the completion score counts exactly the non-CALCULATED fields in
`total`, counts in `completed` exactly those whose stored response is
neither absent (`null`/`undefined`) nor the empty string — so `0`, `false`
and `"0"` count as completed — and the percentage is
`round(completed/total*100)` with `0` (not NaN) when `total` is `0`. -/
theorem calculateCompletionScore_spec :
    (∀ (indicators : List Indicator) (responses : String → Option JSVal),
      (calculateCompletionScore indicators responses).total =
        ((indicators.flatMap Indicator.fields).filter
          (fun f => f.ftype ≠ "calculated")).length
      ∧ (calculateCompletionScore indicators responses).completed =
        ((indicators.flatMap Indicator.fields).filter
          (fun f => f.ftype ≠ "calculated" ∧ responses f.id ≠ none ∧
            responses f.id ≠ some (JSVal.str ""))).length
      ∧ ((calculateCompletionScore indicators responses).total = 0 →
          (calculateCompletionScore indicators responses).percentage = 0)
      ∧ (0 < (calculateCompletionScore indicators responses).total →
          (calculateCompletionScore indicators responses).percentage =
            jsRound (((calculateCompletionScore indicators responses).completed : ℚ) /
              ((calculateCompletionScore indicators responses).total : ℚ) * 100)))
    ∧ responseFilled (some (JSVal.num 0)) = true
    ∧ responseFilled (some (JSVal.bool false)) = true
    ∧ responseFilled (some (JSVal.str "0")) = true
    ∧ responseFilled (some (JSVal.str "")) = false
    ∧ responseFilled none = false := by
  refine ⟨fun indicators responses => ?_, rfl, rfl, by decide, by decide, rfl⟩
  by_cases hl : indicators.length = 0
  · have : indicators = [] := List.length_eq_zero.mp hl
    subst this
    refine ⟨by simp [calculateCompletionScore], by simp [calculateCompletionScore],
      fun _ => by simp [calculateCompletionScore], fun h => ?_⟩
    simp [calculateCompletionScore] at h
  · have htot : (calculateCompletionScore indicators responses).total =
        ((indicators.flatMap Indicator.fields).filter
          (fun f => f.ftype ≠ "calculated")).length := by
      simp only [calculateCompletionScore, hl, if_false, List.countP_eq_length_filter]
      refine congrArg _ (List.filter_congr fun f _ => ?_)
      by_cases hf : f.ftype = "calculated" <;> simp [hf]
    have hcomp : (calculateCompletionScore indicators responses).completed =
        ((indicators.flatMap Indicator.fields).filter
          (fun f => f.ftype ≠ "calculated" ∧ responses f.id ≠ none ∧
            responses f.id ≠ some (JSVal.str ""))).length := by
      simp only [calculateCompletionScore, hl, if_false, List.countP_eq_length_filter]
      refine congrArg _ (List.filter_congr fun f _ => ?_)
      rw [Bool.eq_iff_iff]
      simp [responseFilled_iff, and_assoc]
    refine ⟨htot, hcomp, fun h0 => ?_, fun hpos => ?_⟩
    · simp only [calculateCompletionScore, hl, if_false] at h0 ⊢
      simp [h0]
    · simp only [calculateCompletionScore, hl, if_false] at hpos ⊢
      simp [hpos]

/-- C4 witness: one non-calculated field answered with the number `0` gives
a completed count of 1 and a percentage of 100. -/
theorem calculateCompletionScore_spec_witness :
    (calculateCompletionScore
        [⟨"indicator_0", "t", "", 2,
          [{ id := "indicator_0_main", ftype := "number", required := true }]⟩]
        (fun _ => some (JSVal.num 0))).total = 1
    ∧ (calculateCompletionScore
        [⟨"indicator_0", "t", "", 2,
          [{ id := "indicator_0_main", ftype := "number", required := true }]⟩]
        (fun _ => some (JSVal.num 0))).completed = 1
    ∧ 0 < (calculateCompletionScore
        [⟨"indicator_0", "t", "", 2,
          [{ id := "indicator_0_main", ftype := "number", required := true }]⟩]
        (fun _ => some (JSVal.num 0))).total
    ∧ (calculateCompletionScore
        [⟨"indicator_0", "t", "", 2,
          [{ id := "indicator_0_main", ftype := "number", required := true }]⟩]
        (fun _ => some (JSVal.num 0))).percentage =
      jsRound (((1 : ℕ) : ℚ) / ((1 : ℕ) : ℚ) * 100) := by
  have h := (calculateCompletionScore_spec.1
    [⟨"indicator_0", "t", "", 2,
      [{ id := "indicator_0_main", ftype := "number", required := true }]⟩]
    (fun _ => some (JSVal.num 0)))
  refine ⟨rfl, rfl, by rw [h.1]; decide, ?_⟩
  have := h.2.2.2 (by rw [h.1]; decide)
  rw [this]
  congr 1

/-! ### Claim C7 -/

theorem pct_bounds (c t : ℕ) (hct : c ≤ t) (ht : 0 < t) :
    0 ≤ jsRound ((c : ℚ) / t * 100) ∧ jsRound ((c : ℚ) / t * 100) ≤ 100 := by
  have htq : (0 : ℚ) < t := by exact_mod_cast ht
  have hle : ((c : ℚ) / t) ≤ 1 := by
    rw [div_le_one htq]
    exact_mod_cast hct
  have hge : (0 : ℚ) ≤ (c : ℚ) / t := by positivity
  exact ⟨jsRound_nonneg _ (by nlinarith), jsRound_le _ 100 (by nlinarith)⟩

/-- C7: for every finite input — including empty indicator and response
sets — the completion percentage and all three data-quality percentages are
well-defined integers in `[0, 100]` (the zero-denominator guards make the
results total, so no NaN can arise in this model). -/
theorem scores_within_bounds :
    ∀ (indicators : List Indicator) (responses : String → Option JSVal)
      (entries : List (String × QualityResponse)),
      (0 ≤ (calculateCompletionScore indicators responses).percentage
        ∧ (calculateCompletionScore indicators responses).percentage ≤ 100)
      ∧ (0 ≤ (calculateDataQuality entries).completeness
        ∧ (calculateDataQuality entries).completeness ≤ 100)
      ∧ (0 ≤ (calculateDataQuality entries).standardization
        ∧ (calculateDataQuality entries).standardization ≤ 100)
      ∧ (0 ≤ (calculateDataQuality entries).overallScore
        ∧ (calculateDataQuality entries).overallScore ≤ 100) := by
  intro indicators responses entries
  refine ⟨?_, ?_, ?_, ?_⟩
  · by_cases hl : indicators.length = 0
    · simp [calculateCompletionScore, hl]
    · simp only [calculateCompletionScore, hl, if_false]
      set l := indicators.flatMap Indicator.fields with hldef
      by_cases hpos : l.countP (fun f => !(f.ftype == "calculated")) > 0
      · simp only [hpos, if_pos]
        exact pct_bounds _ _ (List.countP_mono_left (fun f _ h => by
          exact (Bool.and_elim_left h))) hpos
      · simp [hpos]
  · by_cases h : entries.length > 0
    · simp only [calculateDataQuality, h, if_pos]
      exact pct_bounds _ _ (List.countP_le_length _) h
    · simp [calculateDataQuality, h]
  · by_cases h : entries.countP (fun p => responseFilled p.2.value) > 0
    · simp only [calculateDataQuality, h, if_pos]
      exact pct_bounds _ _ (List.countP_mono_left (fun x _ hx =>
        Bool.and_elim_left hx)) h
    · simp [calculateDataQuality, h]
  · by_cases h : entries.length > 0
    · simp only [calculateDataQuality, h, if_pos]
      have hc : entries.countP (fun p => responseFilled p.2.value) ≤ entries.length :=
        List.countP_le_length _
      have hs : entries.countP (fun p =>
          responseFilled p.2.value &&
            (match p.2.rtype with
             | some t => structuredTypes.contains t
             | none => false)) ≤
          entries.countP (fun p => responseFilled p.2.value) :=
        List.countP_mono_left (fun x _ hx => Bool.and_elim_left hx)
      set c := entries.countP (fun p => responseFilled p.2.value)
      set s := entries.countP (fun p =>
        responseFilled p.2.value &&
          (match p.2.rtype with
           | some t => structuredTypes.contains t
           | none => false))
      set t := entries.length
      have htq : (0 : ℚ) < t := by exact_mod_cast h
      have hcq : (c : ℚ) ≤ t := by exact_mod_cast le_trans (le_refl c) hc
      have hsq : (s : ℚ) ≤ c := by exact_mod_cast hs
      have hsq0 : (0 : ℚ) ≤ s := by positivity
      constructor
      · refine jsRound_nonneg _ ?_
        positivity
      · refine jsRound_le _ 100 ?_
        have hnum : ((c : ℚ) * (6/10) + (s : ℚ) * (4/10)) ≤ t := by nlinarith
        rw [div_mul_eq_mul_div, div_le_iff₀ htq]
        push_cast
        nlinarith
    · simp [calculateDataQuality, h]

/-! ### Decimal representation of row indices

The compiler builds ids of the form `indicator_<index>` with `Nat.repr`.
For the global-uniqueness invariant we prove that `Nat.repr` is injective
and produces only digit characters. -/

/-- Reference decimal expansion (most significant digit first). -/
def decDigits (n : ℕ) : List Char :=
  if _ : n < 10 then [Nat.digitChar n]
  else decDigits (n / 10) ++ [Nat.digitChar (n % 10)]
termination_by n
decreasing_by
  exact Nat.div_lt_self (by omega) (by norm_num)

theorem decDigits_small {n : ℕ} (h : n < 10) : decDigits n = [Nat.digitChar n] := by
  rw [decDigits]
  simp [h]

theorem decDigits_large {n : ℕ} (h : ¬n < 10) :
    decDigits n = decDigits (n / 10) ++ [Nat.digitChar (n % 10)] := by
  rw [decDigits]
  simp [h]

theorem toDigitsCore_eq_decDigits :
    ∀ (fuel n : ℕ) (ds : List Char), n < fuel →
      Nat.toDigitsCore 10 fuel n ds = decDigits n ++ ds := by
  intro fuel
  induction fuel with
  | zero => omega
  | succ f ih =>
    intro n ds h
    show (if n / 10 = 0 then Nat.digitChar (n % 10) :: ds
          else Nat.toDigitsCore 10 f (n / 10) (Nat.digitChar (n % 10) :: ds)) =
        decDigits n ++ ds
    by_cases h10 : n / 10 = 0
    · have hn : n < 10 := by omega
      rw [if_pos h10, decDigits_small hn, Nat.mod_eq_of_lt hn]
      rfl
    · have hn : ¬n < 10 := by omega
      have hlt : n / 10 < f := by omega
      rw [if_neg h10, ih (n / 10) _ hlt, decDigits_large hn, List.append_assoc]
      rfl

theorem repr_data_eq_decDigits (n : ℕ) : (Nat.repr n).data = decDigits n := by
  show (Nat.toDigits 10 n).asString.data = decDigits n
  unfold Nat.toDigits
  rw [toDigitsCore_eq_decDigits (n + 1) n [] (Nat.lt_succ_self n)]
  simp [List.asString]

theorem digitChar_val {d : ℕ} (h : d < 10) : (Nat.digitChar d).toNat - 48 = d := by
  interval_cases d <;> rfl

theorem digitChar_isDigit {d : ℕ} (h : d < 10) : (Nat.digitChar d).isDigit = true := by
  interval_cases d <;> rfl

theorem decode_decDigits :
    ∀ n acc : ℕ,
      (decDigits n).foldl (fun a c => a * 10 + (c.toNat - 48)) acc =
        acc * 10 ^ (decDigits n).length + n := by
  intro n
  induction n using Nat.strong_induction_on with
  | _ n ih =>
    intro acc
    by_cases h : n < 10
    · rw [decDigits_small h]
      simp only [List.foldl_cons, List.foldl_nil, List.length_cons, List.length_nil,
        digitChar_val h, Nat.zero_add, pow_one]
    · have h10 : 10 ≤ n := not_lt.mp h
      have hdiv : n / 10 < n := Nat.div_lt_self (by omega) (by norm_num)
      rw [decDigits_large h, List.foldl_append, ih (n / 10) hdiv acc]
      simp only [List.foldl_cons, List.foldl_nil, List.length_append,
        List.length_cons, List.length_nil]
      rw [digitChar_val (Nat.mod_lt n (by norm_num))]
      have hpow : 10 ^ ((decDigits (n / 10)).length + (0 + 1)) =
          10 ^ (decDigits (n / 10)).length * 10 := by ring
      rw [hpow]
      have hmod := Nat.div_add_mod n 10
      set t := 10 ^ (decDigits (n / 10)).length
      ring_nf
      omega

theorem natRepr_injective : ∀ m n : ℕ, Nat.repr m = Nat.repr n → m = n := by
  intro m n h
  have hd : decDigits m = decDigits n := by
    rw [← repr_data_eq_decDigits, ← repr_data_eq_decDigits, h]
  have e1 := decode_decDigits m 0
  have e2 := decode_decDigits n 0
  rw [hd] at e1
  omega

theorem decDigits_all_digits : ∀ n : ℕ, ∀ c ∈ decDigits n, c.isDigit = true := by
  intro n
  induction n using Nat.strong_induction_on with
  | _ n ih =>
    intro c hc
    by_cases h : n < 10
    · rw [decDigits_small h] at hc
      simp at hc
      rw [hc]
      exact digitChar_isDigit h
    · rw [decDigits_large h] at hc
      rcases List.mem_append.mp hc with hm | hm
      · exact ih (n / 10) (Nat.div_lt_self (by omega) (by norm_num)) c hm
      · simp at hm
        rw [hm]
        exact digitChar_isDigit (Nat.mod_lt n (by norm_num))

theorem repr_all_digits (n : ℕ) : ∀ c ∈ (Nat.repr n).data, c.isDigit = true := by
  rw [repr_data_eq_decDigits]
  exact decDigits_all_digits n

theorem repr_no_underscore (n : ℕ) : '_' ∉ (Nat.repr n).data := by
  intro hmem
  have := repr_all_digits n _ hmem
  exact absurd this (by decide)

/-! ### Injectivity of the field id construction -/

theorem string_eq_of_data (s t : String) (h : s.data = t.data) : s = t := by
  cases s
  cases t
  exact congrArg String.mk h

theorem digits_underscore_inj :
    ∀ (a b s t : List Char),
      (∀ c ∈ a, c.isDigit = true) → (∀ c ∈ b, c.isDigit = true) →
      a ++ '_' :: s = b ++ '_' :: t → a = b ∧ s = t := by
  intro a
  induction a with
  | nil =>
    intro b s t _ hb h
    cases b with
    | nil => simpa using h
    | cons d bt =>
      simp only [List.nil_append, List.cons_append, List.cons.injEq] at h
      have hd := hb d (List.mem_cons_self d bt)
      rw [← h.1] at hd
      exact absurd hd (by decide)
  | cons c a' ih =>
    intro b s t ha hb h
    cases b with
    | nil =>
      simp only [List.nil_append, List.cons_append, List.cons.injEq] at h
      have hc := ha c (List.mem_cons_self c a')
      rw [h.1] at hc
      exact absurd hc (by decide)
    | cons d bt =>
      simp only [List.cons_append, List.cons.injEq] at h
      obtain ⟨hcd, htail⟩ := h
      obtain ⟨h1, h2⟩ := ih bt s t (fun x hx => ha x (List.mem_cons_of_mem c hx))
        (fun x hx => hb x (List.mem_cons_of_mem d hx)) htail
      exact ⟨by rw [hcd, h1], h2⟩

theorem string_append_left_cancel (p a b : String) (h : p ++ a = p ++ b) : a = b := by
  have hd : p.data ++ a.data = p.data ++ b.data := by
    have := congrArg String.data h
    simpa [String.data_append] using this
  exact string_eq_of_data _ _ (List.append_cancel_left hd)

theorem fieldId_inj (i j : ℕ) (s t : String)
    (h : ("indicator_" ++ Nat.repr i) ++ "_" ++ s = ("indicator_" ++ Nat.repr j) ++ "_" ++ t) :
    i = j ∧ s = t := by
  have hd := congrArg String.data h
  have hu : ("_" : String).data = ['_'] := rfl
  simp only [String.data_append, hu, List.append_assoc, List.singleton_append] at hd
  have hd2 := List.append_cancel_left hd
  obtain ⟨h1, h2⟩ := digits_underscore_inj _ _ _ _ (repr_all_digits i) (repr_all_digits j) hd2
  exact ⟨natRepr_injective i j (string_eq_of_data _ _ h1), string_eq_of_data _ _ h2⟩

theorem indicatorId_inj (i j : ℕ)
    (h : ("indicator_" : String) ++ Nat.repr i = "indicator_" ++ Nat.repr j) : i = j :=
  natRepr_injective i j (string_append_left_cancel _ _ _ h)

/-! ### Field-id structure of a compiled indicator -/

/-- The id suffixes a field configuration expands to: input keys and
calculation keys for a group, the part keys for a multi-part configuration,
and `main` for a simple field. -/
def configKeys : FieldConfig → List String
  | .calculatedGroup fs cs => fs.map CFField.key ++ cs.map CalcSpec.key
  | .multiPart fs => fs.map CFField.key
  | .simple _ => ["main"]

theorem fieldsFor_map_id (indId itext mtext : String) (cfg : FieldConfig) :
    (fieldsFor indId itext mtext cfg).map Field.id =
      (configKeys cfg).map (fun k => indId ++ "_" ++ k) := by
  cases cfg with
  | calculatedGroup fs cs =>
    simp [fieldsFor, configKeys, List.map_map, Function.comp_def]
  | multiPart fs =>
    simp [fieldsFor, configKeys, List.map_map, Function.comp_def]
  | simple sc =>
    simp only [fieldsFor, configKeys, List.map_cons, List.map_nil]
    rw [String.append_assoc]
    rfl

/-- Each of the four shapes `createFieldConfig` can return has one of these
suffix lists. -/
theorem ite_beq_true {α : Sort u} {d : Decidable (true = true)} (a b : α) :
    (@ite α (true = true) d a b) = a := by
  split
  · rfl
  · simp at *

theorem ite_beq_false {α : Sort u} {d : Decidable (false = true)} (a b : α) :
    (@ite α (false = true) d a b) = b := by
  split
  · simp at *
  · rfl

theorem createFieldConfig_keys_cases (nm : String) (m : Option String) :
    configKeys (createFieldConfig nm m) ∈
      [["staffAtStart", "staffAtEnd", "staffLeft", "averageStaff", "turnoverRate"],
       ["coreFunding", "projectFunding", "totalFunding", "corePercentage", "fundingRatio"],
       ["hasProgram", "details"], ["main"]] := by
  unfold createFieldConfig
  simp only [apply_ite configKeys]
  all_goals (cases h1 : matchesTurnover (jsToLower nm) <;>
      (try simp only [h1, ite_beq_true, ite_beq_false, ite_self, if_true, if_false, configKeys, List.map_cons, List.map_nil]) <;> try decide)
  all_goals (cases h2 : matchesFunding (jsToLower nm) <;>
      (try simp only [h2, ite_beq_true, ite_beq_false, ite_self, if_true, if_false, configKeys, List.map_cons, List.map_nil]) <;> try decide)
  all_goals (cases h3 : matchesMultiPart ((Option.map jsToLower m).getD "") <;>
      (try simp only [h3, ite_beq_true, ite_beq_false, ite_self, if_true, if_false, configKeys, List.map_cons, List.map_nil]) <;> try decide)

theorem createFieldConfig_keys_nodup (nm : String) (m : Option String) :
    (configKeys (createFieldConfig nm m)).Nodup ∧
      ∀ k ∈ configKeys (createFieldConfig nm m), '_' ∉ k.data := by
  have h := createFieldConfig_keys_cases nm m
  simp only [List.mem_cons, List.not_mem_nil, or_false] at h
  rcases h with h | h | h | h <;> rw [h] <;> exact ⟨by decide, by decide⟩

/-! ### Structure of the compiled indicator list -/

theorem appendId_injective (p : String) :
    Function.Injective (fun k : String => p ++ "_" ++ k) := by
  intro a b h
  exact string_append_left_cancel (p ++ "_") a b h

/-- The spec-side row filter: a row survives compilation exactly when its
indicator cell is present and non-blank. -/
def keptRow (icol : String) (r : Row) : Bool :=
  match rowGet r icol with
  | none => false
  | some s => !(s == "") && !(jsTrim s == "")

theorem keptRow_some {icol : String} {r : Row} {s : String}
    (h : rowGet r icol = some s) : keptRow icol r = !(isBlankText s) := by
  simp [keptRow, h, isBlankText]

theorem keptRow_none {icol : String} {r : Row}
    (h : rowGet r icol = none) : keptRow icol r = false := by
  simp [keptRow, h]

/-- Everything needed about one pass of the compilation loop: every produced
indicator carries an id built from a row index at or above the start index,
its field ids are the id-prefixed configuration keys (which are distinct),
and both the indicator ids and the field ids of the whole pass are distinct. -/
theorem processRows_spec (icol : String) (mcol ncol : Option String) :
    ∀ (index : ℕ) (rows : List Row),
      (∀ ind ∈ processRows (some icol) mcol ncol index rows,
        ∃ (i : ℕ) (ks : List String), index ≤ i ∧ ind.id = "indicator_" ++ Nat.repr i
          ∧ ind.fields.map Field.id = ks.map (fun k => ind.id ++ "_" ++ k)
          ∧ ks.Nodup)
      ∧ ((processRows (some icol) mcol ncol index rows).map Indicator.id).Nodup
      ∧ (((processRows (some icol) mcol ncol index rows).flatMap Indicator.fields).map
          Field.id).Nodup := by
  intro index rows
  induction rows generalizing index with
  | nil => simp [processRows]
  | cons row rest ih =>
    obtain ⟨ih1, ih2, ih3⟩ := ih (index + 1)
    cases hres : rowGet row icol with
    | none =>
      have heq : processRows (some icol) mcol ncol index (row :: rest) =
          processRows (some icol) mcol ncol (index + 1) rest := by
        simp [processRows, rowGetOpt, hres]
      rw [heq]
      refine ⟨fun ind hind => ?_, ih2, ih3⟩
      obtain ⟨i, ks, hi, hrest⟩ := ih1 ind hind
      exact ⟨i, ks, by omega, hrest⟩
    | some s =>
      cases hblank : isBlankText s with
      | true =>
        have heq : processRows (some icol) mcol ncol index (row :: rest) =
            processRows (some icol) mcol ncol (index + 1) rest := by
          simp [processRows, rowGetOpt, hres, hblank]
        rw [heq]
        refine ⟨fun ind hind => ?_, ih2, ih3⟩
        obtain ⟨i, ks, hi, hrest⟩ := ih1 ind hind
        exact ⟨i, ks, by omega, hrest⟩
      | false =>
        have heq : processRows (some icol) mcol ncol index (row :: rest) =
            { id := "indicator_" ++ Nat.repr index, title := jsTrim s,
              description := (rowGetOpt row ncol).getD "",
              tier := determineTier s ((rowGetOpt row mcol).getD ""),
              fields := fieldsFor ("indicator_" ++ Nat.repr index) s
                ((rowGetOpt row mcol).getD "")
                (createFieldConfig s (some ((rowGetOpt row mcol).getD ""))) } ::
            processRows (some icol) mcol ncol (index + 1) rest := by
          simp [processRows, rowGetOpt, hres, hblank]
        rw [heq]
        set indId := "indicator_" ++ Nat.repr index with hindId
        set cfg := createFieldConfig s (some ((rowGetOpt row mcol).getD "")) with hcfg
        have hkeys := createFieldConfig_keys_nodup s (some ((rowGetOpt row mcol).getD ""))
        have hmap := fieldsFor_map_id indId s ((rowGetOpt row mcol).getD "") cfg
        refine ⟨?_, ?_, ?_⟩
        · intro ind hind
          rcases List.mem_cons.mp hind with hhead | htail
          · subst hhead
            exact ⟨index, configKeys cfg, Nat.le_refl _, rfl, hmap, hkeys.1⟩
          · obtain ⟨i, ks, hi, hrest⟩ := ih1 ind htail
            exact ⟨i, ks, by omega, hrest⟩
        · rw [List.map_cons]
          refine List.nodup_cons.mpr ⟨?_, ih2⟩
          intro hmem
          obtain ⟨ind', hind', hid⟩ := List.mem_map.mp hmem
          obtain ⟨i, ks, hi, hid', _⟩ := ih1 ind' hind'
          rw [hid'] at hid
          have := indicatorId_inj i index hid
          omega
        · rw [List.flatMap_cons, List.map_append]
          refine List.Nodup.append ?_ ih3 ?_
          · rw [hmap]
            exact (hkeys.1).map (appendId_injective indId)
          · rw [List.disjoint_left]
            intro x hx hx'
            rw [hmap] at hx
            obtain ⟨k, hk, hxk⟩ := List.mem_map.mp hx
            obtain ⟨f', hf', hfx⟩ := List.mem_map.mp hx'
            obtain ⟨ind', hind', hfind⟩ := List.mem_flatMap.mp hf'
            obtain ⟨i, ks, hi, hid', hmap', _⟩ := ih1 ind' hind'
            have hfid : f'.id ∈ ind'.fields.map Field.id := List.mem_map_of_mem _ hfind
            rw [hmap'] at hfid
            obtain ⟨k', hk', hfk⟩ := List.mem_map.mp hfid
            have heqid : indId ++ "_" ++ k = ind'.id ++ "_" ++ k' := by
              rw [hxk, hfk, hfx]
            rw [hid', hindId] at heqid
            have := (fieldId_inj index i k k' heqid).1
            omega

/-- The ids produced by the loop are exactly `indicator_<index>` for the
surviving rows, in row order. -/
theorem processRows_map_ids (icol : String) (mcol ncol : Option String) :
    ∀ (index : ℕ) (rows : List Row),
      (processRows (some icol) mcol ncol index rows).map Indicator.id =
        ((rows.enumFrom index).filter (fun p => keptRow icol p.2)).map
          (fun p => "indicator_" ++ Nat.repr p.1) := by
  intro index rows
  induction rows generalizing index with
  | nil => simp [processRows]
  | cons row rest ih =>
    have henum : (row :: rest).enumFrom index = (index, row) :: rest.enumFrom (index + 1) :=
      rfl
    rw [henum]
    cases hres : rowGet row icol with
    | none =>
      have hkept : keptRow icol row = false := keptRow_none hres
      simp only [List.filter_cons, hkept, Bool.false_eq_true, if_false]
      have heq : processRows (some icol) mcol ncol index (row :: rest) =
          processRows (some icol) mcol ncol (index + 1) rest := by
        simp [processRows, rowGetOpt, hres]
      rw [heq, ih]
    | some s =>
      have hkept : keptRow icol row = !(isBlankText s) := keptRow_some hres
      cases hblank : isBlankText s with
      | true =>
        rw [hblank] at hkept
        simp only [List.filter_cons, hkept, Bool.not_true, Bool.false_eq_true, if_false]
        have heq : processRows (some icol) mcol ncol index (row :: rest) =
            processRows (some icol) mcol ncol (index + 1) rest := by
          simp [processRows, rowGetOpt, hres, hblank]
        rw [heq, ih]
      | false =>
        rw [hblank] at hkept
        simp only [List.filter_cons, hkept, Bool.not_false, if_true]
        have heq : processRows (some icol) mcol ncol index (row :: rest) =
            { id := "indicator_" ++ Nat.repr index, title := jsTrim s,
              description := (rowGetOpt row ncol).getD "",
              tier := determineTier s ((rowGetOpt row mcol).getD ""),
              fields := fieldsFor ("indicator_" ++ Nat.repr index) s
                ((rowGetOpt row mcol).getD "")
                (createFieldConfig s (some ((rowGetOpt row mcol).getD ""))) } ::
            processRows (some icol) mcol ncol (index + 1) rest := by
          simp [processRows, rowGetOpt, hres, hblank]
        rw [heq, List.map_cons, ih]
        rfl

theorem filter_enumFrom_length (q : Row → Bool) :
    ∀ (n : ℕ) (rows : List Row),
      ((rows.enumFrom n).filter (fun p => q p.2)).length = (rows.filter q).length := by
  intro n rows
  induction rows generalizing n with
  | nil => rfl
  | cons row rest ih =>
    have henum : (row :: rest).enumFrom n = (n, row) :: rest.enumFrom (n + 1) := rfl
    rw [henum]
    cases hq : q row <;>
      simp [List.filter_cons, hq, ih]

/-- When no notes column was resolved, every compiled indicator description
is empty. -/
theorem processRows_description_empty (icol : String) (mcol : Option String) :
    ∀ (index : ℕ) (rows : List Row) (ind : Indicator),
      ind ∈ processRows (some icol) mcol none index rows → ind.description = "" := by
  intro index rows
  induction rows generalizing index with
  | nil => simp [processRows]
  | cons row rest ih =>
    intro ind hind
    cases hres : rowGet row icol with
    | none =>
      rw [show processRows (some icol) mcol none index (row :: rest) =
          processRows (some icol) mcol none (index + 1) rest by
        simp [processRows, rowGetOpt, hres]] at hind
      exact ih (index + 1) ind hind
    | some s =>
      cases hblank : isBlankText s with
      | true =>
        rw [show processRows (some icol) mcol none index (row :: rest) =
            processRows (some icol) mcol none (index + 1) rest by
          simp [processRows, rowGetOpt, hres, hblank]] at hind
        exact ih (index + 1) ind hind
      | false =>
        rw [show processRows (some icol) mcol none index (row :: rest) =
            { id := "indicator_" ++ Nat.repr index, title := jsTrim s,
              description := (rowGetOpt row none).getD "",
              tier := determineTier s ((rowGetOpt row mcol).getD ""),
              fields := fieldsFor ("indicator_" ++ Nat.repr index) s
                ((rowGetOpt row mcol).getD "")
                (createFieldConfig s (some ((rowGetOpt row mcol).getD ""))) } ::
            processRows (some icol) mcol none (index + 1) rest by
          simp [processRows, rowGetOpt, hres, hblank]] at hind
        rcases List.mem_cons.mp hind with hhead | htail
        · rw [hhead]
          rfl
        · exact ih (index + 1) ind htail


/-- A field built from an empty method text has an empty (or absent)
description. -/
theorem fieldsFor_description_empty (indId itext : String) (cfg : FieldConfig) :
    ∀ f ∈ fieldsFor indId itext "" cfg,
      f.description = none ∨ f.description = some "" := by
  cases cfg with
  | calculatedGroup fs cs =>
    intro f hf
    rcases List.mem_append.mp hf with hm | hm <;>
      · obtain ⟨g, _, hg⟩ := List.mem_map.mp hm
        rw [← hg]
        exact Or.inl rfl
  | multiPart fs =>
    intro f hf
    obtain ⟨g, _, hg⟩ := List.mem_map.mp hf
    rw [← hg]
    exact Or.inl rfl
  | simple sc =>
    intro f hf
    rcases List.mem_singleton.mp hf with hhead
    rw [hhead]
    exact Or.inr rfl

/-- When no method column was resolved, every compiled field description is
absent or empty. -/
theorem processRows_field_description_empty (icol : String) (ncol : Option String) :
    ∀ (index : ℕ) (rows : List Row) (ind : Indicator) (f : Field),
      ind ∈ processRows (some icol) none ncol index rows → f ∈ ind.fields →
      f.description = none ∨ f.description = some "" := by
  intro index rows
  induction rows generalizing index with
  | nil => simp [processRows]
  | cons row rest ih =>
    intro ind f hind hf
    cases hres : rowGet row icol with
    | none =>
      rw [show processRows (some icol) none ncol index (row :: rest) =
          processRows (some icol) none ncol (index + 1) rest by
        simp [processRows, rowGetOpt, hres]] at hind
      exact ih (index + 1) ind f hind hf
    | some s =>
      cases hblank : isBlankText s with
      | true =>
        rw [show processRows (some icol) none ncol index (row :: rest) =
            processRows (some icol) none ncol (index + 1) rest by
          simp [processRows, rowGetOpt, hres, hblank]] at hind
        exact ih (index + 1) ind f hind hf
      | false =>
        rw [show processRows (some icol) none ncol index (row :: rest) =
            { id := "indicator_" ++ Nat.repr index, title := jsTrim s,
              description := (rowGetOpt row ncol).getD "",
              tier := determineTier s ((rowGetOpt row none).getD ""),
              fields := fieldsFor ("indicator_" ++ Nat.repr index) s
                ((rowGetOpt row none).getD "")
                (createFieldConfig s (some ((rowGetOpt row none).getD ""))) } ::
            processRows (some icol) none ncol (index + 1) rest by
          simp [processRows, rowGetOpt, hres, hblank]] at hind
        rcases List.mem_cons.mp hind with hhead | htail
        · rw [hhead] at hf
          exact fieldsFor_description_empty _ _ _ f hf
        · exact ih (index + 1) ind f htail hf

/-! ### Claim C2 -/

/-- C2: for a non-empty row set whose first row resolves an indicator
column, compilation succeeds and produces exactly one indicator per row with
non-blank indicator text, in original row order, each with id
`indicator_<index>` taken from its row position; blank rows are skipped
without an error. -/
theorem generateStandardizedFields_one_per_nonblank_row :
    ∀ (firstRow : Row) (rest : List Row) (icol : String),
      (rowKeys firstRow).find? isIndicatorKey = some icol →
      ∃ l, generateStandardizedFields (some (firstRow :: rest)) = .ok l
        ∧ l.map Indicator.id =
            (((firstRow :: rest).enum).filter (fun p => keptRow icol p.2)).map
              (fun p => "indicator_" ++ Nat.repr p.1)
        ∧ l.length = ((firstRow :: rest).filter (keptRow icol)).length := by
  intro firstRow rest icol hfind
  refine ⟨processRows (some icol) ((rowKeys firstRow).find? isMethodKey)
      ((rowKeys firstRow).find? isNotesKey) 0 (firstRow :: rest), ?_, ?_, ?_⟩
  · simp [generateStandardizedFields, hfind]
  · exact processRows_map_ids icol _ _ 0 (firstRow :: rest)
  · have h1 := processRows_map_ids icol ((rowKeys firstRow).find? isMethodKey)
      ((rowKeys firstRow).find? isNotesKey) 0 (firstRow :: rest)
    have h2 := congrArg List.length h1
    rw [List.length_map, List.length_map] at h2
    rw [h2]
    exact filter_enumFrom_length (keptRow icol) 0 (firstRow :: rest)

/-- C2 witness: three rows, the middle one blank, compile to the indicators
`indicator_0` and `indicator_2`. -/
theorem generateStandardizedFields_one_per_nonblank_row_witness :
    (rowKeys [("Indicator", "A")]).find? isIndicatorKey = some "Indicator"
    ∧ ∃ l, generateStandardizedFields
          (some [[("Indicator", "A")], [("Indicator", " ")], [("Indicator", "B")]]) = .ok l
        ∧ l.map Indicator.id =
            ((([[("Indicator", "A")], [("Indicator", " ")], [("Indicator", "B")]] :
                List Row).enum).filter (fun p => keptRow "Indicator" p.2)).map
              (fun p => "indicator_" ++ Nat.repr p.1)
        ∧ l.length = (([[("Indicator", "A")], [("Indicator", " ")], [("Indicator", "B")]] :
            List Row).filter (keptRow "Indicator")).length :=
  ⟨rfl, generateStandardizedFields_one_per_nonblank_row [("Indicator", "A")]
    [[("Indicator", " ")], [("Indicator", "B")]] "Indicator" rfl⟩

/-! ### Claim C3 -/

/-- C3: for a non-empty row set, compilation throws exactly when no header
of the first row resolves to the indicator role, and the error message
enumerates the available headers; when an indicator column is present the
compilation succeeds even without method or notes columns, degrading to
empty descriptions and empty method text. -/
theorem generateStandardizedFields_missing_indicator_column :
    ∀ (firstRow : Row) (rest : List Row),
      ((rowKeys firstRow).find? isIndicatorKey = none →
        generateStandardizedFields (some (firstRow :: rest)) =
          .error ("No indicator column found. Available columns: " ++
            String.intercalate ", " (rowKeys firstRow)))
      ∧ (∀ icol, (rowKeys firstRow).find? isIndicatorKey = some icol →
          ∃ l, generateStandardizedFields (some (firstRow :: rest)) = .ok l
            ∧ ((rowKeys firstRow).find? isNotesKey = none →
                ∀ ind ∈ l, ind.description = "")
            ∧ ((rowKeys firstRow).find? isMethodKey = none →
                ∀ ind ∈ l, ∀ f ∈ ind.fields,
                  f.description = none ∨ f.description = some "")) := by
  intro firstRow rest
  constructor
  · intro hnone
    simp [generateStandardizedFields, hnone]
  · intro icol hfind
    refine ⟨processRows (some icol) ((rowKeys firstRow).find? isMethodKey)
        ((rowKeys firstRow).find? isNotesKey) 0 (firstRow :: rest),
      by simp [generateStandardizedFields, hfind], ?_, ?_⟩
    · intro hnotes ind hind
      rw [hnotes] at hind
      exact processRows_description_empty icol _ 0 _ ind hind
    · intro hmethod ind hind f hf
      rw [hmethod] at hind
      exact processRows_field_description_empty icol _ 0 _ ind f hind hf

/-- C3 witness: a row set without an indicator-like header errors with the
header list, and one with only an indicator header compiles with empty
descriptions. -/
theorem generateStandardizedFields_missing_indicator_column_witness :
    ((rowKeys [("Foo", "1"), ("Bar", "2")]).find? isIndicatorKey = none
      ∧ generateStandardizedFields (some [[("Foo", "1"), ("Bar", "2")]]) =
          .error ("No indicator column found. Available columns: " ++
            String.intercalate ", " (rowKeys [("Foo", "1"), ("Bar", "2")])))
    ∧ ((rowKeys [("Indicator", "A")]).find? isIndicatorKey = some "Indicator"
      ∧ ∃ l, generateStandardizedFields (some [[("Indicator", "A")]]) = .ok l
          ∧ ((rowKeys [("Indicator", "A")]).find? isNotesKey = none →
              ∀ ind ∈ l, ind.description = "")
          ∧ ((rowKeys [("Indicator", "A")]).find? isMethodKey = none →
              ∀ ind ∈ l, ∀ f ∈ ind.fields,
                f.description = none ∨ f.description = some "")) :=
  ⟨⟨rfl, (generateStandardizedFields_missing_indicator_column
      [("Foo", "1"), ("Bar", "2")] []).1 rfl⟩,
   ⟨rfl, (generateStandardizedFields_missing_indicator_column
      [("Indicator", "A")] []).2 "Indicator" rfl⟩⟩

/-! ### Claim C6 -/

/-- C6: in every successful compilation all field ids are pairwise distinct
across all indicators: each field id is the owning indicator id plus a
suffix, the indicator ids `indicator_<index>` are pairwise distinct, and
within one indicator the suffixes are pairwise distinct. -/
theorem generateStandardizedFields_field_ids_unique :
    ∀ (csvData : Option (List Row)) (l : List Indicator),
      generateStandardizedFields csvData = .ok l →
      ((l.flatMap Indicator.fields).map Field.id).Nodup
      ∧ (l.map Indicator.id).Nodup
      ∧ (∀ ind ∈ l, ∃ i : ℕ, ind.id = "indicator_" ++ Nat.repr i)
      ∧ (∀ ind ∈ l, (ind.fields.map Field.id).Nodup)
      ∧ (∀ ind ∈ l, ∀ f ∈ ind.fields, ∃ suffix, f.id = ind.id ++ "_" ++ suffix) := by
  intro csvData l h
  match csvData with
  | none =>
    have hl : l = [] := by simpa [generateStandardizedFields] using h.symm
    subst hl
    simp
  | some [] =>
    have hl : l = [] := by simpa [generateStandardizedFields] using h.symm
    subst hl
    simp
  | some (firstRow :: rest) =>
    cases hfind : (rowKeys firstRow).find? isIndicatorKey with
    | none =>
      simp [generateStandardizedFields, hfind] at h
    | some icol =>
      have hl : processRows (some icol) ((rowKeys firstRow).find? isMethodKey)
          ((rowKeys firstRow).find? isNotesKey) 0 (firstRow :: rest) = l := by
        simpa [generateStandardizedFields, hfind] using h
      obtain ⟨h1, h2, h3⟩ := processRows_spec icol ((rowKeys firstRow).find? isMethodKey)
        ((rowKeys firstRow).find? isNotesKey) 0 (firstRow :: rest)
      rw [hl] at h1 h2 h3
      refine ⟨h3, h2, ?_, ?_, ?_⟩
      · intro ind hind
        obtain ⟨i, ks, _, hid, _, _⟩ := h1 ind hind
        exact ⟨i, hid⟩
      · intro ind hind
        obtain ⟨i, ks, _, _, hmap, hnd⟩ := h1 ind hind
        rw [hmap]
        exact hnd.map (appendId_injective _)
      · intro ind hind f hf
        obtain ⟨i, ks, _, _, hmap, _⟩ := h1 ind hind
        have hmem : f.id ∈ ind.fields.map Field.id := List.mem_map_of_mem _ hf
        rw [hmap] at hmem
        obtain ⟨k, _, hfk⟩ := List.mem_map.mp hmem
        exact ⟨k, hfk.symm⟩

/-- C6 witness: a concrete one-row compilation whose hypothesis is
discharged by evaluation. -/
theorem generateStandardizedFields_field_ids_unique_witness :
    generateStandardizedFields
        (some [[("Indicator", "Total members"), ("Method", "How many are there")]]) =
      .ok [{ id := "indicator_0", title := "Total members", description := "", tier := 2,
             fields := [{ id := "indicator_0_main", ftype := "number",
                          label := some "Total members",
                          description := some "How many are there", required := true,
                          placeholder := some "Enter number",
                          validation := some [.required, .staffCount] }] }]
    ∧ (((([{ id := "indicator_0", title := "Total members", description := "", tier := 2,
             fields := [{ id := "indicator_0_main", ftype := "number",
                          label := some "Total members",
                          description := some "How many are there", required := true,
                          placeholder := some "Enter number",
                          validation := some [.required, .staffCount] }] }] :
        List Indicator).flatMap Indicator.fields).map Field.id).Nodup) := by
  have h : generateStandardizedFields
      (some [[("Indicator", "Total members"), ("Method", "How many are there")]]) =
    .ok [{ id := "indicator_0", title := "Total members", description := "", tier := 2,
           fields := [{ id := "indicator_0_main", ftype := "number",
                        label := some "Total members",
                        description := some "How many are there", required := true,
                        placeholder := some "Enter number",
                        validation := some [.required, .staffCount] }] }] := rfl
  exact ⟨h, (generateStandardizedFields_field_ids_unique _ _ h).1⟩

/-! ### Claim C10 -/

/-- C10: a `null`/`undefined` or empty row set compiles to the empty
indicator list without raising the missing-column error; column resolution
is only attempted when at least one row is present, so an error implies a
non-empty row set. -/
theorem generateStandardizedFields_empty_input :
    generateStandardizedFields none = .ok []
    ∧ generateStandardizedFields (some []) = .ok []
    ∧ ∀ (rows : List Row) (e : String),
        generateStandardizedFields (some rows) = .error e → rows ≠ [] := by
  refine ⟨rfl, rfl, fun rows e h hnil => ?_⟩
  subst hnil
  simp [generateStandardizedFields] at h

/-- C10 witness: the error case really occurs, and only on a non-empty row
set. -/
theorem generateStandardizedFields_empty_input_witness :
    generateStandardizedFields (some [[("Foo", "1")]]) =
      .error "No indicator column found. Available columns: Foo"
    ∧ ([[("Foo", "1")]] : List Row) ≠ [] :=
  ⟨rfl, generateStandardizedFields_empty_input.2.2 [[("Foo", "1")]] _ rfl⟩

/-! ### Claim C1 -/

/-- C1 (code bug): this method text contains both the `(Yes/No)` and the
`Check all that apply` markers, and the indicator text matches neither the
turnover nor the funding rule, yet `createFieldConfig` does not return the
`multi_part` configuration: the classifier lower-cases the method text
before testing the case-sensitive patterns, so the multi-part branch can
never fire, and the input falls through to the plain yes/no rule, producing
one plain required radio field. -/
theorem createFieldConfig_multiPart_markers_yield_plain_radio :
    jsIncludes "Do you have a policy? (Yes/No) What applies? (Check all that apply): ☐ A ☐ B"
      "(Yes/No)" = true
    ∧ jsIncludes "Do you have a policy? (Yes/No) What applies? (Check all that apply): ☐ A ☐ B"
      "Check all that apply" = true
    ∧ matchesTurnover (jsToLower "Client services") = false
    ∧ matchesFunding (jsToLower "Client services") = false
    ∧ matchesMultiPart (jsToLower
        "Do you have a policy? (Yes/No) What applies? (Check all that apply): ☐ A ☐ B") = false
    ∧ createFieldConfig "Client services"
        (some "Do you have a policy? (Yes/No) What applies? (Check all that apply): ☐ A ☐ B") =
      .simple { ftype := "radio", options := some StandardOptions.yesNo,
                validation := [.required] } :=
  ⟨rfl, rfl, rfl, rfl, rfl, rfl⟩

/-! ### Claim C8 -/

/-- C8 (code bug): the indicator text contains `wellness` and the method
text is exactly a `Check all that apply` marker, yet the configuration is
not the employee-benefits checkbox: the wellness branch tests the
case-sensitive pattern against the lower-cased method text and never fires,
so the input falls through to the generic checkbox rule, whose glyph-free
method text yields the collaboration-types catalog instead. -/
theorem createFieldConfig_wellness_gets_collaboration_options :
    jsIncludes (jsToLower "Employee wellness supports") "wellness" = true
    ∧ jsIncludes "Check all that apply" "Check all that apply" = true
    ∧ matchesWellness (jsToLower "Employee wellness supports")
        (jsToLower "Check all that apply") = false
    ∧ createFieldConfig "Employee wellness supports" (some "Check all that apply") =
      .simple { ftype := "checkbox", options := some StandardOptions.collaborationTypes,
                validation := [.required] }
    ∧ StandardOptions.collaborationTypes ≠ StandardOptions.employeeBenefits :=
  ⟨rfl, rfl, rfl, rfl, by decide⟩

end DataEngine
